import Mathlib

/-!
Verification development for the SocialAi supervision / self-healing core
("Healdec").  The definitions below are shallow embeddings of the JavaScript
functions documented in the repository (`handleWorkerFailure`, `restartWorker`,
`safeUpdate`, `rollback`, `checkWorkerHealth`, `setWorkerHealth`) and the test
orchestrator mocks.  Asynchronous JavaScript functions that may reject are
embedded in the `Except` monad; `setTimeout` callbacks are embedded as pending
timer records that fire in a separate step, carrying the values captured by the
closure at scheduling time.
-/

namespace SocialAi

/-- Association-list lookup, the embedding of `map.get(key)` / `obj[key]`. -/
def lookupKey {α : Type} : List (String × α) → String → Option α
  | [], _ => none
  | (k', v) :: rest, k => if k' = k then some v else lookupKey rest k

/-- Association-list update, the embedding of `map.set(key, v)` / `obj[key] = v`. -/
def setKey {α : Type} : List (String × α) → String → α → List (String × α)
  | [], k, v => [(k, v)]
  | (k', v') :: rest, k, v =>
      if k' = k then (k, v) :: rest else (k', v') :: setKey rest k v

/-- Association-list deletion, the embedding of `map.delete(key)`. -/
def removeKey {α : Type} : List (String × α) → String → List (String × α)
  | [], _ => []
  | (k', v') :: rest, k =>
      if k' = k then removeKey rest k else (k', v') :: removeKey rest k

/-- Configuration payloads are treated as opaque byte strings: the properties
about them only compare configurations for (byte-for-byte) equality. -/
abbrev Cfg := String

/-- An alert record as built by `alertAdmin` (level, component, message). -/
structure Alert where
  level : String
  component : String
  message : String
deriving DecidableEq

/-- Observable process-control actions performed on a target
(`stopComponent` / `startComponent`). -/
inductive Event where
  | stop (name : String)
  | start (name : String)
deriving DecidableEq

namespace Healdec

/-- State touched by the Healdec config-update protocol: the live worker
configurations (`CONFIG.workers`), the alerts recorded so far, and the ordered
log of process-control actions. -/
structure HealdecState where
  workers : List (String × Cfg)
  alerts : List Alert
  events : List Event
deriving DecidableEq

/-- Embedding of `alertAdmin(target, message)` (HEALDEC.md): builds an alert
with level `critical` and records it. -/
def alertAdmin (s : HealdecState) (target message : String) : HealdecState :=
  { s with alerts := s.alerts ++ [⟨"critical", target, message⟩] }

/-- Embedding of `rollback(target, backup)` (HEALDEC.md, Automatic Rollback):
stop the component, restore `CONFIG.workers[target] = backup`, restart it,
then verify; a failed verification raises the critical alert
`"Rollback failed"`, and any exception inside the body is caught and turned
into a `false` return.  `healthCheck` is the health oracle, a function of the
live configurations (so that the post-rollback check can differ from the
post-apply one). -/
def rollback (healthCheck : List (String × Cfg) → String → Except String Bool)
    (target : String) (backup : Option Cfg) (s : HealdecState) :
    Bool × HealdecState :=
  let s1 : HealdecState := { s with events := s.events ++ [Event.stop target] }
  let s2 : HealdecState :=
    { s1 with workers :=
        match backup with
        | some c => setKey s1.workers target c
        | none => removeKey s1.workers target }
  let s3 : HealdecState := { s2 with events := s2.events ++ [Event.start target] }
  match healthCheck s3.workers target with
  | Except.ok true => (true, s3)
  | Except.ok false => (false, alertAdmin s3 target "Rollback failed")
  | Except.error _ => (false, s3)

/-- Embedding of `safeUpdate(target, updateFn)` (part_000 lines 756–785):
backup, validate (returning `false` on validation failure), then inside a
`try`: apply `updateFn`, health-check the target, return `true` on success;
the `catch` rolls back to the backup and returns `false`.  `updateFn` is an
arbitrary mutation of the live configurations that may also throw; the result
is in `Except` because a JavaScript async function may in principle reject. -/
def safeUpdate (validate : String → Bool)
    (healthCheck : List (String × Cfg) → String → Except String Bool)
    (target : String)
    (updateFn : List (String × Cfg) → Except String (List (String × Cfg)))
    (s : HealdecState) : Except String (Bool × HealdecState) :=
  let backup := lookupKey s.workers target
  if !(validate target) then
    Except.ok (false, s)
  else
    match updateFn s.workers with
    | Except.error _ =>
        Except.ok (false, (rollback healthCheck target backup s).2)
    | Except.ok ws' =>
        let s1 : HealdecState := { s with workers := ws' }
        match healthCheck s1.workers target with
        | Except.ok true => Except.ok (true, s1)
        | Except.ok false =>
            Except.ok (false, (rollback healthCheck target backup s1).2)
        | Except.error _ =>
            Except.ok (false, (rollback healthCheck target backup s1).2)

/-- The three boolean checks filled in by `checkWorkerHealth`. -/
structure WorkerChecks where
  processRunning : Bool
  recentActivity : Bool
  lowErrorRate : Bool
deriving DecidableEq

/-- The record returned by `checkWorkerHealth` (HEALDEC.md, Health
Monitoring): a name, the three checks, and the overall boolean verdict. -/
structure WorkerHealth where
  name : String
  checks : WorkerChecks
  healthy : Bool
deriving DecidableEq

/-- Embedding of `checkWorkerHealth(workerName)` (HEALDEC.md lines 443–468):
process liveness from the worker map, `Date.now() - lastRun < 300000`,
`errorRate < 0.05` (error rates embedded as exact rationals), and
`healthy` the conjunction of the three checks. -/
def checkWorkerHealth (workers : List String) (now : Int)
    (lastRun : String → Int) (errorRate : String → ℚ)
    (workerName : String) : WorkerHealth :=
  let processRunning := workers.contains workerName
  let timeSinceLastRun := now - lastRun workerName
  let recentActivity := decide (timeSinceLastRun < 300000)
  let lowErrorRate := decide (errorRate workerName < 5 / 100)
  { name := workerName
    checks := ⟨processRunning, recentActivity, lowErrorRate⟩
    healthy := processRunning && recentActivity && lowErrorRate }

end Healdec

namespace Manager

/-- A pending `setTimeout` restart callback.  The closure captures the
`restartCount` read at scheduling time, which the callback uses when it fires
(`this.restartCounts.set(name, restartCount + 1)`). -/
structure Timer where
  name : String
  delay : Nat
  capturedCount : Nat
deriving DecidableEq

/-- State of the worker manager: the live worker handles (`this.workers`
keys), the per-worker restart counters (`this.restartCounts`), the pending
restart timers, the alerts raised so far, and the ordered log of
`startWorker` invocations. -/
structure ManagerState where
  workers : List String
  restartCounts : List (String × Nat)
  pendingTimers : List Timer
  alerts : List Alert
  started : List String
deriving DecidableEq

/-- Embedding of `this.restartCounts.get(name) || 0`. -/
def getCount (s : ManagerState) (name : String) : Nat :=
  (lookupKey s.restartCounts name).getD 0

/-- Embedding of `handleWorkerFailure(name, config)` (part_000 lines
732–748): read the restart count; at or above `maxRestarts`, log and call
`alertAdmin(name, 'Max restart limit reached')` and return; otherwise
schedule a restart after `restartDelay * 2 ** restartCount` without touching
the counter (the counter is updated by the timer callback when it fires). -/
def handleWorkerFailure (maxRestarts restartDelay : Nat) (name : String)
    (s : ManagerState) : ManagerState :=
  if maxRestarts ≤ getCount s name then
    { s with alerts := s.alerts ++ [⟨"critical", name, "Max restart limit reached"⟩] }
  else
    { s with pendingTimers :=
        s.pendingTimers ++ [⟨name, restartDelay * 2 ^ getCount s name, getCount s name⟩] }

/-- Embedding of `restartWorker(name)` (part_003 lines 463–482): read the
restart count; at or above `maxRestarts`, log and return (no alert); otherwise
kill and remove any existing handle and schedule `startWorker` after the flat
`CONFIG.healdec.restartDelay` (no backoff factor in this code path). -/
def restartWorker (maxRestarts restartDelay : Nat) (name : String)
    (s : ManagerState) : ManagerState :=
  if maxRestarts ≤ getCount s name then
    s
  else
    { s with
        workers := s.workers.erase name
        pendingTimers := s.pendingTimers ++ [⟨name, restartDelay, getCount s name⟩] }

/-- Removal of the first occurrence of a fired timer from the pending list. -/
def eraseTimer : List Timer → Timer → List Timer
  | [], _ => []
  | t' :: rest, t => if t' = t then rest else t' :: eraseTimer rest t

/-- Firing of a pending restart timer: the `setTimeout` callback runs
`startWorker(name, config)` and `restartCounts.set(name, captured + 1)`,
where `captured` is the count the closure captured when it was scheduled. -/
def fireTimer (t : Timer) (s : ManagerState) : ManagerState :=
  { s with
      pendingTimers := eraseTimer s.pendingTimers t
      workers := if s.workers.contains t.name then s.workers else s.workers ++ [t.name]
      started := s.started ++ [t.name]
      restartCounts := setKey s.restartCounts t.name (t.capturedCount + 1) }

/-- One step of the restart machinery: an unhealthy-worker signal handled by
`handleWorkerFailure`, a recovery-triggered `restartWorker`, or the firing of
a pending restart timer. -/
inductive Step (maxRestarts restartDelay : Nat) : ManagerState → ManagerState → Prop
  | fail (name : String) (s : ManagerState) :
      Step maxRestarts restartDelay s (handleWorkerFailure maxRestarts restartDelay name s)
  | restart (name : String) (s : ManagerState) :
      Step maxRestarts restartDelay s (restartWorker maxRestarts restartDelay name s)
  | fire (t : Timer) (s : ManagerState) (h : t ∈ s.pendingTimers) :
      Step maxRestarts restartDelay s (fireTimer t s)

/-- Restart-budget invariant: every stored counter is at most `maxRestarts`
and every pending timer captured a counter strictly below `maxRestarts`. -/
def Inv (maxRestarts : Nat) (s : ManagerState) : Prop :=
  (∀ p ∈ s.restartCounts, p.2 ≤ maxRestarts) ∧
  (∀ t ∈ s.pendingTimers, t.capturedCount < maxRestarts)

end Manager

namespace OrchTest

/-- Embedding of the orchestrator test engine's
`checkWorkerHealth(workerName)` (part_007 lines 161–163):
`this.healthChecks.get(workerName) || false`. -/
def checkWorkerHealth (healthChecks : List (String × Bool))
    (workerName : String) : Bool :=
  (lookupKey healthChecks workerName).getD false

/-- Embedding of `setWorkerHealth(workerName, healthy)` (part_007 lines
165–167): `this.healthChecks.set(workerName, healthy)`. -/
def setWorkerHealth (healthChecks : List (String × Bool))
    (workerName : String) (healthy : Bool) : List (String × Bool) :=
  setKey healthChecks workerName healthy

end OrchTest

/-! Helper lemmas about the association-list operations and the timer list. -/

theorem lookupKey_mem {α : Type} {l : List (String × α)} {k : String} {v : α}
    (h : lookupKey l k = some v) : (k, v) ∈ l := by
  induction l with
  | nil => simp [lookupKey] at h
  | cons p rest ih =>
      obtain ⟨k', v'⟩ := p
      by_cases hk : k' = k
      · subst hk
        simp [lookupKey] at h
        subst h
        exact List.mem_cons_self _ _
      · simp [lookupKey, hk] at h
        exact List.mem_cons_of_mem _ (ih h)

theorem mem_setKey {α : Type} {l : List (String × α)} {k : String} {v : α}
    {p : String × α} (h : p ∈ setKey l k v) : p ∈ l ∨ p = (k, v) := by
  induction l with
  | nil =>
      simp [setKey] at h
      exact Or.inr h
  | cons q rest ih =>
      obtain ⟨k', v'⟩ := q
      by_cases hk : k' = k
      · subst hk
        simp [setKey] at h
        rcases h with h | h
        · exact Or.inr h
        · exact Or.inl (List.mem_cons_of_mem _ h)
      · simp [setKey, hk] at h
        rcases h with h | h
        · exact Or.inl (by simp [h])
        · rcases ih h with h' | h'
          · exact Or.inl (List.mem_cons_of_mem _ h')
          · exact Or.inr h'

theorem lookupKey_setKey_self {α : Type} (l : List (String × α)) (k : String) (v : α) :
    lookupKey (setKey l k v) k = some v := by
  induction l with
  | nil => simp [setKey, lookupKey]
  | cons q rest ih =>
      obtain ⟨k', v'⟩ := q
      by_cases hk : k' = k
      · subst hk
        simp [setKey, lookupKey]
      · simp [setKey, lookupKey, hk, ih]

theorem lookupKey_removeKey_self {α : Type} (l : List (String × α)) (k : String) :
    lookupKey (removeKey l k) k = none := by
  induction l with
  | nil => simp [removeKey, lookupKey]
  | cons q rest ih =>
      obtain ⟨k', v'⟩ := q
      by_cases hk : k' = k
      · simp [removeKey, hk, ih]
      · simp [removeKey, lookupKey, hk, ih]

theorem mem_eraseTimer {l : List Manager.Timer} {t t' : Manager.Timer}
    (h : t' ∈ Manager.eraseTimer l t) : t' ∈ l := by
  induction l with
  | nil => simp [Manager.eraseTimer] at h
  | cons q rest ih =>
      by_cases hq : q = t
      · subst hq
        simp [Manager.eraseTimer] at h
        exact List.mem_cons_of_mem _ h
      · simp [Manager.eraseTimer, hq] at h
        rcases h with h | h
        · simp [h]
        · exact List.mem_cons_of_mem _ (ih h)

/-- Characterization of the state produced by `rollback`: the configuration at
the target is restored to the backup, the target is stopped and started again,
and the alert log either is unchanged or gains the single critical
`"Rollback failed"` alert. -/
theorem rollback_state (hc : List (String × Cfg) → String → Except String Bool)
    (target : String) (backup : Option Cfg) (s : Healdec.HealdecState) :
    lookupKey ((Healdec.rollback hc target backup s).2).workers target = backup ∧
    ((Healdec.rollback hc target backup s).2).events
      = s.events ++ [Event.stop target, Event.start target] ∧
    (((Healdec.rollback hc target backup s).2).alerts = s.alerts ∨
      ((Healdec.rollback hc target backup s).2).alerts
        = s.alerts ++ [⟨"critical", target, "Rollback failed"⟩]) := by
  unfold Healdec.rollback
  cases backup with
  | none =>
      cases hE : hc (removeKey s.workers target) target with
      | error e => simp [hE, lookupKey_removeKey_self]
      | ok b =>
          cases b <;> simp [hE, Healdec.alertAdmin, lookupKey_removeKey_self]
  | some c =>
      cases hE : hc (setKey s.workers target c) target with
      | error e => simp [hE, lookupKey_setKey_self]
      | ok b =>
          cases b <;> simp [hE, Healdec.alertAdmin, lookupKey_setKey_self]

/-- C2: whenever `safeUpdate` rejects the update because validation fails, it
returns the failure result with the live configuration byte-for-byte identical
to the configuration before the call and no restart of the target attempted
(in fact the state is returned entirely unchanged). -/
theorem safeUpdate_reject_preserves (validate : String → Bool)
    (hc : List (String × Cfg) → String → Except String Bool) (target : String)
    (upd : List (String × Cfg) → Except String (List (String × Cfg)))
    (s : Healdec.HealdecState)
    (hv : validate target = false) :
    ∃ s' : Healdec.HealdecState,
      Healdec.safeUpdate validate hc target upd s = Except.ok (false, s') ∧
      s'.workers = s.workers ∧ s'.events = s.events := by
  refine ⟨s, ?_, rfl, rfl⟩
  unfold Healdec.safeUpdate
  simp [hv]

/-- Witness for `safeUpdate_reject_preserves` at a concrete rejected call. -/
theorem safeUpdate_reject_preserves_witness :
    (fun (_ : String) => false) "w3" = false ∧
    ∃ s' : Healdec.HealdecState,
      Healdec.safeUpdate (fun _ => false) (fun _ _ => Except.ok true) "w3"
          (fun ws => Except.ok ws) ⟨[("w3", "cfg")], [], []⟩ = Except.ok (false, s') ∧
      s'.workers = Healdec.HealdecState.workers ⟨[("w3", "cfg")], [], []⟩ ∧
      s'.events = Healdec.HealdecState.events ⟨[("w3", "cfg")], [], []⟩ :=
  ⟨rfl, safeUpdate_reject_preserves (fun _ => false) (fun _ _ => Except.ok true) "w3"
    (fun ws => Except.ok ws) ⟨[("w3", "cfg")], [], []⟩ rfl⟩

/-- C1 (amended): for every target and change function that passes
validation, if the apply step throws or the post-apply health check does not
report healthy, then `safeUpdate` restores the configuration captured in the
pre-change backup at the target, stops and restarts the target, and returns
the `false` failure result; the only alert this path can raise is the
critical `"Rollback failed"` alert from a failed rollback verification — no
warning alert is raised. -/
theorem safeUpdate_rollback_path (validate : String → Bool)
    (hc : List (String × Cfg) → String → Except String Bool) (target : String)
    (upd : List (String × Cfg) → Except String (List (String × Cfg)))
    (s : Healdec.HealdecState)
    (hv : validate target = true)
    (hfail : (∃ e, upd s.workers = Except.error e) ∨
      (∃ ws', upd s.workers = Except.ok ws' ∧ hc ws' target ≠ Except.ok true)) :
    ∃ s' : Healdec.HealdecState,
      Healdec.safeUpdate validate hc target upd s = Except.ok (false, s') ∧
      lookupKey s'.workers target = lookupKey s.workers target ∧
      s'.events = s.events ++ [Event.stop target, Event.start target] ∧
      (∀ a ∈ s'.alerts, a ∈ s.alerts ∨ a = ⟨"critical", target, "Rollback failed"⟩) := by
  have halerts :
      ∀ s₀ : Healdec.HealdecState, ∀ backup : Option Cfg,
        s₀.alerts = s.alerts →
        ∀ a ∈ ((Healdec.rollback hc target backup s₀).2).alerts,
          a ∈ s.alerts ∨ a = ⟨"critical", target, "Rollback failed"⟩ := by
    intro s₀ backup heq a ha
    rcases (rollback_state hc target backup s₀).2.2 with hcase | hcase
    · rw [hcase, heq] at ha
      exact Or.inl ha
    · rw [hcase, heq] at ha
      rcases List.mem_append.mp ha with h | h
      · exact Or.inl h
      · simp at h
        exact Or.inr h
  unfold Healdec.safeUpdate
  simp only [hv, Bool.not_true, Bool.false_eq_true, if_false]
  rcases hfail with ⟨e, he⟩ | ⟨ws', hok, hne⟩
  · rw [he]
    refine ⟨_, rfl, ?_, ?_, ?_⟩
    · exact (rollback_state hc target _ s).1
    · exact (rollback_state hc target _ s).2.1
    · exact halerts s _ rfl
  · rw [hok]
    dsimp only
    cases hE : hc ws' target with
    | ok b =>
        cases b with
        | true => exact absurd hE hne
        | false =>
            refine ⟨_, rfl, ?_, ?_, ?_⟩
            · exact (rollback_state hc target _ _).1
            · exact (rollback_state hc target _ _).2.1
            · exact halerts { s with workers := ws' } _ rfl
    | error e =>
        refine ⟨_, rfl, ?_, ?_, ?_⟩
        · exact (rollback_state hc target _ _).1
        · exact (rollback_state hc target _ _).2.1
        · exact halerts { s with workers := ws' } _ rfl

/-- Witness for `safeUpdate_rollback_path`: a concrete update whose post-apply
health check reports unhealthy. -/
theorem safeUpdate_rollback_path_witness :
    ((fun (_ : String) => true) "w4" = true ∧
      ((∃ e, (fun (ws : List (String × Cfg)) =>
          Except.ok (ε := String) (setKey ws "w4" "new")) [("w4", "old")] = Except.error e) ∨
        (∃ ws', (fun (ws : List (String × Cfg)) =>
            Except.ok (ε := String) (setKey ws "w4" "new")) [("w4", "old")] = Except.ok ws' ∧
          (fun (ws : List (String × Cfg)) (t : String) =>
            Except.ok (ε := String) (decide (lookupKey ws t = some "old"))) ws' "w4"
            ≠ Except.ok true))) ∧
    ∃ s' : Healdec.HealdecState,
      Healdec.safeUpdate (fun _ => true)
          (fun ws t => Except.ok (decide (lookupKey ws t = some "old"))) "w4"
          (fun ws => Except.ok (setKey ws "w4" "new"))
          ⟨[("w4", "old")], [], []⟩ = Except.ok (false, s') ∧
      lookupKey s'.workers "w4"
        = lookupKey (Healdec.HealdecState.workers ⟨[("w4", "old")], [], []⟩) "w4" ∧
      s'.events = [Event.stop "w4", Event.start "w4"] ∧
      (∀ a ∈ s'.alerts,
        a ∈ Healdec.HealdecState.alerts ⟨[("w4", "old")], [], []⟩ ∨
        a = ⟨"critical", "w4", "Rollback failed"⟩) := by
  have hfail : (∃ e, (fun (ws : List (String × Cfg)) =>
      Except.ok (ε := String) (setKey ws "w4" "new")) [("w4", "old")] = Except.error e) ∨
      (∃ ws', (fun (ws : List (String × Cfg)) =>
          Except.ok (ε := String) (setKey ws "w4" "new")) [("w4", "old")] = Except.ok ws' ∧
        (fun (ws : List (String × Cfg)) (t : String) =>
          Except.ok (ε := String) (decide (lookupKey ws t = some "old"))) ws' "w4"
          ≠ Except.ok true) := by
    refine Or.inr ⟨[("w4", "new")], by simp [setKey], ?_⟩
    intro h
    have hb : decide (lookupKey [("w4", "new")] "w4" = some "old") = true := Except.ok.inj h
    simp [lookupKey] at hb
  exact ⟨⟨rfl, hfail⟩,
    safeUpdate_rollback_path (fun _ => true)
      (fun ws t => Except.ok (decide (lookupKey ws t = some "old"))) "w4"
      (fun ws => Except.ok (setKey ws "w4" "new"))
      ⟨[("w4", "old")], [], []⟩ rfl hfail⟩

/-- C1 counterexample to the claim as stated: a concrete `safeUpdate` call
whose post-apply health check reports unhealthy rolls back (configuration
restored, target stopped and restarted) and returns `false`, but the final
alert log is empty — no warning alert with reason "update rolled back" (nor
any alert at all) is raised, and the return value is the boolean `false`, not
a distinguished `RolledBack` value. -/
theorem safeUpdate_rollback_no_warning_cex :
    Healdec.safeUpdate (fun _ => true)
        (fun ws t => Except.ok (decide (lookupKey ws t = some "old"))) "w4"
        (fun ws => Except.ok (setKey ws "w4" "new"))
        ⟨[("w4", "old")], [], []⟩
      = Except.ok (false,
          ⟨[("w4", "old")], [], [Event.stop "w4", Event.start "w4"]⟩) := by
  rfl

/-- C8 (amended): `safeUpdate` returns a boolean, `true` exactly when
validation passes, the change function succeeds, and the post-apply health
check reports healthy; it returns `false` both when validation rejects the
update and when the update is rolled back, so the caller cannot distinguish
the two failure outcomes and no rejection reason is reported. -/
theorem safeUpdate_boolean_result (validate : String → Bool)
    (hc : List (String × Cfg) → String → Except String Bool) (target : String)
    (upd : List (String × Cfg) → Except String (List (String × Cfg)))
    (s : Healdec.HealdecState) :
    ∃ (b : Bool) (s' : Healdec.HealdecState),
      Healdec.safeUpdate validate hc target upd s = Except.ok (b, s') ∧
      (b = true ↔ (validate target = true ∧
        ∃ ws', upd s.workers = Except.ok ws' ∧ hc ws' target = Except.ok true)) := by
  unfold Healdec.safeUpdate
  cases hv : validate target with
  | false =>
      refine ⟨false, s, rfl, ?_⟩
      simp
  | true =>
      simp only [Bool.not_true, Bool.false_eq_true, if_false]
      cases hu : upd s.workers with
      | error e =>
          refine ⟨false,
            (Healdec.rollback hc target (lookupKey s.workers target) s).2, rfl, ?_⟩
          simp
      | ok ws' =>
          dsimp only
          cases hE : hc ws' target with
          | error e =>
              refine ⟨false, (Healdec.rollback hc target (lookupKey s.workers target)
                { s with workers := ws' }).2, rfl, ?_⟩
              simp [hE]
          | ok b =>
              cases b with
              | true =>
                  refine ⟨true, { s with workers := ws' }, rfl, ?_⟩
                  exact ⟨fun _ => ⟨by trivial, ws', rfl, hE⟩, fun _ => rfl⟩
              | false =>
                  refine ⟨false, (Healdec.rollback hc target (lookupKey s.workers target)
                    { s with workers := ws' }).2, rfl, ?_⟩
                  simp [hE]

/-- C8 counterexample to the claim as stated: a call rejected by validation
and a call rolled back after a failing apply both return the very same value
`Except.ok (false, ·)` in the boolean component — the result is not a
three-way `Committed | RolledBack | Rejected(reason)` value and the caller
cannot distinguish a rejection (with its reason) from a rollback. -/
theorem safeUpdate_result_indistinguishable_cex :
    (Healdec.safeUpdate (fun _ => false) (fun _ _ => Except.ok true) "w"
        (fun ws => Except.ok ws) ⟨[("w", "cfg")], [], []⟩
      = Except.ok (false, ⟨[("w", "cfg")], [], []⟩)) ∧
    (Healdec.safeUpdate (fun _ => true) (fun _ _ => Except.ok true) "w"
        (fun _ => Except.error "apply threw") ⟨[("w", "cfg")], [], []⟩
      = Except.ok (false,
          ⟨[("w", "cfg")], [], [Event.stop "w", Event.start "w"]⟩)) := by
  exact ⟨rfl, rfl⟩

/-- C9: `safeUpdate` never propagates an exception to its caller: for every
validator, health oracle, target, change function and starting state, the
call returns an ordinary result, and whenever the change function throws or
the post-apply health check throws, the returned boolean is the `false`
failure result (produced by the rollback path). -/
theorem safeUpdate_no_throw (validate : String → Bool)
    (hc : List (String × Cfg) → String → Except String Bool) (target : String)
    (upd : List (String × Cfg) → Except String (List (String × Cfg)))
    (s : Healdec.HealdecState) :
    ∃ (b : Bool) (s' : Healdec.HealdecState),
      Healdec.safeUpdate validate hc target upd s = Except.ok (b, s') ∧
      (∀ e, upd s.workers = Except.error e → b = false) ∧
      (∀ ws' e, upd s.workers = Except.ok ws' → hc ws' target = Except.error e →
        b = false) := by
  unfold Healdec.safeUpdate
  cases hv : validate target with
  | false =>
      exact ⟨false, s, rfl, fun _ _ => rfl, fun _ _ _ _ => rfl⟩
  | true =>
      simp only [Bool.not_true, Bool.false_eq_true, if_false]
      cases hu : upd s.workers with
      | error e =>
          exact ⟨false, (Healdec.rollback hc target (lookupKey s.workers target) s).2,
            rfl, fun _ _ => rfl, fun _ _ _ _ => rfl⟩
      | ok ws' =>
          dsimp only
          cases hE : hc ws' target with
          | error e =>
              exact ⟨false, (Healdec.rollback hc target (lookupKey s.workers target)
                { s with workers := ws' }).2, rfl, fun _ _ => rfl, fun _ _ _ _ => rfl⟩
          | ok b =>
              cases b with
              | true =>
                  refine ⟨true, { s with workers := ws' }, rfl, ?_, ?_⟩
                  · intro e' h
                    cases h
                  · intro ws'' e' h hE'
                    cases h
                    rw [hE] at hE'
                    cases hE'
              | false =>
                  exact ⟨false, (Healdec.rollback hc target (lookupKey s.workers target)
                    { s with workers := ws' }).2, rfl, fun _ _ => rfl, fun _ _ _ _ => rfl⟩

/-- C5 (amended): the worker probe computes three boolean checks — process
liveness, last successful run within the 300000 ms freshness window, and
error rate below 0.05 — and the overall `healthy` verdict is `true` exactly
when all three pass; a failing check yields only `healthy = false`, with no
distinct `Unhealthy`/"stale" or `Degraded` verdict. -/
theorem checkWorkerHealth_conjunction (workers : List String) (now : Int)
    (lastRun : String → Int) (errorRate : String → ℚ) (workerName : String) :
    (Healdec.checkWorkerHealth workers now lastRun errorRate workerName).healthy = true ↔
      (workers.contains workerName = true ∧
        now - lastRun workerName < 300000 ∧
        errorRate workerName < 5 / 100) := by
  simp [Healdec.checkWorkerHealth, Bool.and_eq_true, decide_eq_true_iff, and_assoc]

/-- C5 counterexample to the claim as stated: a worker failing only the
freshness check (which the claim says gets the distinct verdict `Unhealthy`
with reason "stale") and a worker failing only the error-rate check (which
the claim says gets the distinct verdict `Degraded`) receive one and the same
overall verdict from the code, the bare boolean `false`: the probe result
carries no status or reason distinguishing the two cases. -/
theorem checkWorkerHealth_no_verdicts_cex :
    (Healdec.checkWorkerHealth ["w"] 1000000 (fun _ => 0) (fun _ => 0) "w").checks.recentActivity
      = false ∧
    (Healdec.checkWorkerHealth ["w"] 1000000 (fun _ => 0) (fun _ => 0) "w").checks.lowErrorRate
      = true ∧
    (Healdec.checkWorkerHealth ["w"] 1000000 (fun _ => 900000) (fun _ => 1 / 10) "w").checks.recentActivity
      = true ∧
    (Healdec.checkWorkerHealth ["w"] 1000000 (fun _ => 900000) (fun _ => 1 / 10) "w").checks.lowErrorRate
      = false ∧
    (Healdec.checkWorkerHealth ["w"] 1000000 (fun _ => 0) (fun _ => 0) "w").healthy
      = (Healdec.checkWorkerHealth ["w"] 1000000 (fun _ => 900000) (fun _ => 1 / 10) "w").healthy := by
  norm_num [Healdec.checkWorkerHealth]

/-- C10: a component name never recorded via `setWorkerHealth` is reported as
unhealthy (`false`) by the test engine's `checkWorkerHealth` rather than
raising an error, and a stored `false` verdict is indistinguishable from an
absent one: setting a component's health to `false` yields the same probe
answer as never having recorded it. -/
theorem checkWorkerHealth_unknown_false (hcs : List (String × Bool)) (name : String)
    (h : lookupKey hcs name = none) :
    OrchTest.checkWorkerHealth hcs name = false ∧
    ∀ hcs' : List (String × Bool),
      OrchTest.checkWorkerHealth (OrchTest.setWorkerHealth hcs' name false) name =
        OrchTest.checkWorkerHealth hcs name := by
  constructor
  · unfold OrchTest.checkWorkerHealth
    rw [h]
    rfl
  · intro hcs'
    unfold OrchTest.checkWorkerHealth OrchTest.setWorkerHealth
    rw [h, lookupKey_setKey_self]
    rfl

/-- Witness for `checkWorkerHealth_unknown_false` on a concrete registry that
has never recorded the queried name. -/
theorem checkWorkerHealth_unknown_false_witness :
    lookupKey [("farcaster", true)] "nonexistent" = none ∧
    (OrchTest.checkWorkerHealth [("farcaster", true)] "nonexistent" = false ∧
      ∀ hcs' : List (String × Bool),
        OrchTest.checkWorkerHealth (OrchTest.setWorkerHealth hcs' "nonexistent" false)
            "nonexistent" =
          OrchTest.checkWorkerHealth [("farcaster", true)] "nonexistent") :=
  ⟨by decide, checkWorkerHealth_unknown_false [("farcaster", true)] "nonexistent" (by decide)⟩

/-- C3 (amended): under the restart-budget invariant, every step of the
restart machinery (an unhealthy signal handled by `handleWorkerFailure`, a
recovery `restartWorker`, or a pending timer firing) preserves it, so a
worker's consecutive-restart count never exceeds the configured maximum; and
once the count has reached the maximum, `handleWorkerFailure` schedules no
further restart and raises a critical alert with message
`"Max restart limit reached"` (while `restartWorker` schedules no restart and
raises no alert, returning the state unchanged); the code has no `Failed`
worker state. -/
theorem restart_budget (max d : Nat) (name : String) (s s' : Manager.ManagerState)
    (hInv : Manager.Inv max s) :
    (Manager.Step max d s s' → Manager.Inv max s') ∧
    (max ≤ Manager.getCount s name →
      Manager.handleWorkerFailure max d name s =
        { s with alerts := s.alerts ++ [⟨"critical", name, "Max restart limit reached"⟩] } ∧
      Manager.restartWorker max d name s = s) := by
  constructor
  · intro hstep
    cases hstep with
    | fail n =>
        unfold Manager.handleWorkerFailure
        by_cases hle : max ≤ Manager.getCount s n
        · rw [if_pos hle]
          exact ⟨hInv.1, hInv.2⟩
        · rw [if_neg hle]
          refine ⟨hInv.1, ?_⟩
          intro t ht
          rcases List.mem_append.mp ht with h | h
          · exact hInv.2 t h
          · simp at h
            subst h
            exact Nat.lt_of_not_le hle
    | restart n =>
        unfold Manager.restartWorker
        by_cases hle : max ≤ Manager.getCount s n
        · rw [if_pos hle]
          exact hInv
        · rw [if_neg hle]
          refine ⟨hInv.1, ?_⟩
          intro t ht
          rcases List.mem_append.mp ht with h | h
          · exact hInv.2 t h
          · simp at h
            subst h
            exact Nat.lt_of_not_le hle
    | fire t s₂ hmem =>
        constructor
        · intro p hp
          simp only [Manager.fireTimer] at hp
          rcases mem_setKey hp with h | h
          · exact hInv.1 p h
          · rw [h]
            exact Nat.succ_le_of_lt (hInv.2 t hmem)
        · intro t' ht'
          simp only [Manager.fireTimer] at ht'
          exact hInv.2 t' (mem_eraseTimer ht')
  · intro hmax
    constructor
    · unfold Manager.handleWorkerFailure
      rw [if_pos hmax]
    · unfold Manager.restartWorker
      rw [if_pos hmax]

/-- Witness for `restart_budget`: a state whose counter for "w2" already
equals the maximum 3, with the invariant and the at-max hypothesis discharged
concretely. -/
theorem restart_budget_witness :
    Manager.Inv 3 ⟨[], [("w2", 3)], [], [], []⟩ ∧
    ((Manager.Step 3 5000 ⟨[], [("w2", 3)], [], [], []⟩
        (Manager.restartWorker 3 5000 "w2" ⟨[], [("w2", 3)], [], [], []⟩) →
      Manager.Inv 3 (Manager.restartWorker 3 5000 "w2" ⟨[], [("w2", 3)], [], [], []⟩)) ∧
      (3 ≤ Manager.getCount ⟨[], [("w2", 3)], [], [], []⟩ "w2" →
        Manager.handleWorkerFailure 3 5000 "w2" ⟨[], [("w2", 3)], [], [], []⟩ =
          { Manager.ManagerState.mk [] [("w2", 3)] [] [] [] with
              alerts := [] ++ [⟨"critical", "w2", "Max restart limit reached"⟩] } ∧
        Manager.restartWorker 3 5000 "w2" ⟨[], [("w2", 3)], [], [], []⟩ =
          ⟨[], [("w2", 3)], [], [], []⟩)) :=
  ⟨⟨by decide, by decide⟩, restart_budget 3 5000 "w2" ⟨[], [("w2", 3)], [], [], []⟩
    (Manager.restartWorker 3 5000 "w2" ⟨[], [("w2", 3)], [], [], []⟩) ⟨by decide, by decide⟩⟩

/-- C3 counterexample to the claim as stated: at the maximum the alert raised
by `handleWorkerFailure` carries the message `"Max restart limit reached"`,
not the claimed reason `"max restarts reached"`, and the worker-manager path
`restartWorker` raises no alert at all at the maximum (and neither function
transitions the worker to any `Failed` state — no such state exists in the
code). -/
theorem restart_budget_cex :
    (Manager.handleWorkerFailure 3 5000 "w2" ⟨[], [("w2", 3)], [], [], []⟩).alerts
      = [⟨"critical", "w2", "Max restart limit reached"⟩] ∧
    ("Max restart limit reached" : String) ≠ "max restarts reached" ∧
    (Manager.restartWorker 3 5000 "w2" ⟨[], [("w2", 3)], [], [], []⟩).alerts = [] ∧
    (Manager.handleWorkerFailure 3 5000 "w2" ⟨[], [("w2", 3)], [], [], []⟩).pendingTimers
      = [] := by
  decide

/-- C4 (amended): for a worker whose restart count is below the maximum,
`handleWorkerFailure` schedules the restart after
`restartDelay * 2 ^ count` (5s, 10s, 20s for counts 0, 1, 2 at the default
base 5000 ms) and the scheduled callback, when it fires, starts the worker
and sets the count to `count + 1`; the worker-manager path `restartWorker`,
by contrast, schedules its restart after the flat `restartDelay` with no
backoff factor. -/
theorem backoff_delay (max d : Nat) (name : String) (s : Manager.ManagerState)
    (h : Manager.getCount s name < max) :
    (Manager.handleWorkerFailure max d name s).pendingTimers
      = s.pendingTimers
          ++ [⟨name, d * 2 ^ Manager.getCount s name, Manager.getCount s name⟩] ∧
    (∀ t : Manager.Timer,
      (Manager.fireTimer t s).restartCounts
        = setKey s.restartCounts t.name (t.capturedCount + 1) ∧
      (Manager.fireTimer t s).started = s.started ++ [t.name]) ∧
    (Manager.restartWorker max d name s).pendingTimers
      = s.pendingTimers ++ [⟨name, d, Manager.getCount s name⟩] := by
  refine ⟨?_, fun t => ⟨rfl, rfl⟩, ?_⟩
  · unfold Manager.handleWorkerFailure
    rw [if_neg (by omega)]
  · unfold Manager.restartWorker
    rw [if_neg (by omega)]

/-- Witness for `backoff_delay` at count 2 below the maximum 3, where the
scheduled delay is 5000 × 2² = 20000. -/
theorem backoff_delay_witness :
    Manager.getCount ⟨["w"], [("w", 2)], [], [], []⟩ "w" < 3 ∧
    ((Manager.handleWorkerFailure 3 5000 "w" ⟨["w"], [("w", 2)], [], [], []⟩).pendingTimers
      = [] ++ [⟨"w", 5000 * 2 ^ Manager.getCount ⟨["w"], [("w", 2)], [], [], []⟩ "w",
          Manager.getCount ⟨["w"], [("w", 2)], [], [], []⟩ "w"⟩] ∧
    (∀ t : Manager.Timer,
      (Manager.fireTimer t ⟨["w"], [("w", 2)], [], [], []⟩).restartCounts
        = setKey [("w", 2)] t.name (t.capturedCount + 1) ∧
      (Manager.fireTimer t ⟨["w"], [("w", 2)], [], [], []⟩).started = [] ++ [t.name]) ∧
    (Manager.restartWorker 3 5000 "w" ⟨["w"], [("w", 2)], [], [], []⟩).pendingTimers
      = [] ++ [⟨"w", 5000, Manager.getCount ⟨["w"], [("w", 2)], [], [], []⟩ "w"⟩]) :=
  ⟨by decide, backoff_delay 3 5000 "w" ⟨["w"], [("w", 2)], [], [], []⟩ (by decide)⟩

/-- C4 counterexample to the claim as stated: with restart count 1 (below the
maximum), `restartWorker` schedules the restart after the flat base delay
5000 ms, not the claimed `base_delay × 2^count = 10000` ms. -/
theorem backoff_delay_cex :
    (Manager.restartWorker 3 5000 "w" ⟨["w"], [("w", 1)], [], [], []⟩).pendingTimers
      = [⟨"w", 5000, 1⟩] ∧
    (5000 : Nat) ≠ 5000 * 2 ^ 1 := by
  decide

/-- C6 (amended): an unhealthy signal for a worker whose count is below the
maximum always appends a fresh restart timer, so repeated unhealthy signals
arriving before a pending timer fires stack additional timers for the same
worker instead of being coalesced into the pending one. -/
theorem timer_per_signal (max d : Nat) (name : String) (s : Manager.ManagerState)
    (h : Manager.getCount s name < max) :
    ((Manager.handleWorkerFailure max d name s).pendingTimers.filter
        (fun t => t.name == name)).length
      = ((s.pendingTimers.filter (fun t => t.name == name)).length) + 1 := by
  unfold Manager.handleWorkerFailure
  rw [if_neg (by omega)]
  simp

/-- Witness for `timer_per_signal`: a second unhealthy signal for "w" while
one restart timer is already pending yields two pending timers. -/
theorem timer_per_signal_witness :
    Manager.getCount ⟨["w"], [], [⟨"w", 5000, 0⟩], [], []⟩ "w" < 3 ∧
    ((Manager.handleWorkerFailure 3 5000 "w"
        ⟨["w"], [], [⟨"w", 5000, 0⟩], [], []⟩).pendingTimers.filter
          (fun t => t.name == "w")).length
      = ((Manager.ManagerState.pendingTimers
            ⟨["w"], [], [⟨"w", 5000, 0⟩], [], []⟩).filter
              (fun t => t.name == "w")).length + 1 :=
  ⟨by decide, timer_per_signal 3 5000 "w" ⟨["w"], [], [⟨"w", 5000, 0⟩], [], []⟩ (by decide)⟩

/-- C6 counterexample to the claim as stated: two unhealthy signals for the
same worker arriving before any timer fires produce two simultaneously
pending restart timers for that worker — the second signal is not a no-op, so
"at most one pending restart timer per worker" fails on the code. -/
theorem timer_per_signal_cex :
    (Manager.handleWorkerFailure 3 5000 "w"
        (Manager.handleWorkerFailure 3 5000 "w" ⟨["w"], [], [], [], []⟩)).pendingTimers
      = [⟨"w", 5000, 0⟩, ⟨"w", 5000, 0⟩] := by
  decide

/-- C7: the code never implements the documented reset window — scheduling a
restart through either `handleWorkerFailure` or `restartWorker` leaves the
stored restart counters untouched (no code path ever zeroes a counter, and no
window-start timestamp is even recorded), so however much time has elapsed
since the first restart, the next restart decision uses the stale count: at
the failing input (counter for "w1" already 2, reset window long elapsed) the
scheduled delay is 5000 × 2² = 20000 ms with captured count 2, instead of the
reset count 0. -/
theorem reset_window_missing :
    (∀ (max d : Nat) (n : String) (s : Manager.ManagerState),
      (Manager.handleWorkerFailure max d n s).restartCounts = s.restartCounts ∧
      (Manager.restartWorker max d n s).restartCounts = s.restartCounts) ∧
    (Manager.handleWorkerFailure 3 5000 "w1" ⟨["w1"], [("w1", 2)], [], [], []⟩).pendingTimers
      = [⟨"w1", 20000, 2⟩] ∧
    (Manager.handleWorkerFailure 3 5000 "w1"
        ⟨["w1"], [("w1", 2)], [], [], []⟩).restartCounts
      = [("w1", 2)] := by
  refine ⟨?_, by decide, by decide⟩
  intro max d n s
  constructor
  · unfold Manager.handleWorkerFailure
    split <;> rfl
  · unfold Manager.restartWorker
    split <;> rfl

end SocialAi
